import Mathlib

set_option maxRecDepth 8000

/-!
Shallow embedding of the solver orchestration layer of the capytaine BEM
solver (file capytaine/bem/solver.py, class BEMSolver), together with proofs
about the behaviours described in the specification.

Modelling conventions:
- Complex floating-point values are modelled by pairs of integers Cx with
  exact complex arithmetic.
- Extended real scalars that the source compares against 0.0 and numpy
  infinity (frequencies, wavenumbers, free surface level, water depth) are
  modelled by the type Xf of integers extended with both infinities.
- The external Greens function evaluator and matrix engine (excluded from the
  core by the specification) are modelled at their interface: the engine
  builds an influence matrix by evaluating a kernel for each pair of one
  target face and one source face, and owns an arbitrary linear solver.
- Products with the external symbolic zero and infinity frequency
  wrapper are recorded as terms of the free algebra SVal rather than
  evaluated, since no claim under study observes the numeric value of a
  pressure or elevation entry.
- Logging and progress-bar rendering are effect free for the properties at
  stake and are dropped; the rich progress track call is the identity on
  the iterated list.
- The per-solver timing ledger is modelled by an explicit call counter
  threaded through solve_all.
-/

/-- Extended scalar: an integer-valued model of a Python float that may be
numpy positive or negative infinity. -/
inductive Xf where
  | ninf : Xf
  | fin : Int → Xf
  | inf : Xf
deriving DecidableEq, Repr

/-- Strict order on extended scalars, as float comparison in the source. -/
def Xf.lt : Xf → Xf → Bool
  | .ninf, .ninf => false
  | .ninf, _ => true
  | .fin _, .ninf => false
  | .fin a, .fin b => a < b
  | .fin _, .inf => true
  | .inf, _ => false

/-- Complex value modelled with integer real and imaginary parts. -/
abbrev Cx := Int × Int

def cadd (a b : Cx) : Cx := (a.1 + b.1, a.2 + b.2)

def csub (a b : Cx) : Cx := (a.1 - b.1, a.2 - b.2)

def cmul (a b : Cx) : Cx := (a.1 * b.1 - a.2 * b.2, a.1 * b.2 + a.2 * b.1)

/-- Dot product of a matrix row with a vector of complex values. -/
def dotC (row : List Cx) (v : List Cx) : Cx :=
  (List.zipWith cmul row v).foldl cadd (0, 0)

/-- Matrix vector product, one dot product per row. -/
def matvec (m : List (List Cx)) (v : List Cx) : List Cx :=
  m.map (fun row => dotC row v)

/-- Python exceptions raised by the solver module, tagged by their class. -/
inductive PyError where
  | valueError : String → PyError
  | notImplementedError : String → PyError
  | exception : String → PyError
  | importError : String → PyError
deriving DecidableEq, Repr

/-- Message of line 131 of the source. -/
def degenerate_diffraction_msg : String :=
  "Diffraction problems at zero or infinite frequency are not defined"

/-- Message of line 149 of the source. -/
def direct_forward_speed_msg : String :=
  "Direct solver is not able to solve problems with forward speed."

/-- Message of lines 161 and 176 of the source, with the interpolated shapes
and engine repr elided. -/
def linear_solver_shape_msg : String :=
  "Error in linear solver: the shape of the output does not match the expected shape"

/-- Message of line 249 of the source, with the interpolated value elided. -/
def invalid_progress_bar_env_msg : String :=
  "Invalid value for the environment variable CAPYTAINE_PROGRESS_BAR."

/-- Message of lines 399 to 401 and 536 to 538 of the source, with the
interpolated result repr elided. -/
def sources_missing_full_msg : String :=
  "The values of the sources of the result cannot been found. They probably have not been stored by the solver because the option keep_details=True have not been set or the direct method has been used. Please re-run the resolution with the indirect method and keep_details=True."

/-- Message of lines 412 to 414 of the source, with the interpolated result
repr elided. This message mentions only the keep_details option. -/
def sources_missing_details_msg : String :=
  "The values of the sources of the result cannot been found. They probably have not been stored by the solver because the option keep_details=True have not been set. Please re-run the resolution with this option."

/-- Message of line 589 of the source. -/
def legacy_fse_forward_speed_msg : String :=
  "For free surface elevation with forward speed, please use the compute_free_surface_elevation method."

/-- Message of line 261 of the source, with the interpolated n_jobs elided. -/
def missing_joblib_msg : String :=
  "Setting the n_jobs argument requires the missing optional dependency joblib."

/-- Message of line 63 of the source, with the interpolated method elided. -/
def invalid_init_method_msg : String :=
  "Unrecognized method when initializing solver. Expected direct or indirect."

/-- Prefix test on character lists. -/
def charsStartsWith : List Char → List Char → Bool
  | [], _ => true
  | _ :: _, [] => false
  | c :: cs, d :: ds => c == d && charsStartsWith cs ds

/-- Contiguous substring test on character lists. -/
def charsContains (pat : List Char) (s : List Char) : Bool :=
  match s with
  | [] => charsStartsWith pat []
  | _ :: rest => charsStartsWith pat s || charsContains pat rest

/-- Substring test on strings. -/
def strContains (s pat : String) : Bool := charsContains pat.toList s.toList

/-- True when a message spells out the full remedy for missing sources:
re-solving with the indirect method and with keep_details=True. -/
def mentions_full_remedy (msg : String) : Bool :=
  strContains msg "indirect method" && strContains msg "keep_details=True"

/-- True when a message recommends re-running with keep_details=True. -/
def mentions_keep_details (msg : String) : Bool :=
  strContains msg "keep_details=True"

/-- Lower casing of a string as the Python str.lower method on the ASCII
method and environment values handled by the solver, applied character by
character. -/
def pyLower (s : String) : String := ⟨s.data.map Char.toLower⟩

/-- Data availability errors are raised as bare Exception in the source. -/
def PyError.is_data_availability : PyError → Bool
  | .exception _ => true
  | _ => false

def PyError.message : PyError → String
  | .valueError m => m
  | .notImplementedError m => m
  | .exception m => m
  | .importError m => m

/-- A mesh, reduced to the list of its faces; each face is an abstract
integer descriptor. nb_faces is the length of the list. -/
structure Mesh where
  faces : List Int
deriving DecidableEq, Repr

def Mesh.nb_faces (m : Mesh) : Nat := m.faces.length

/-- Extraction of a sublist of faces by indices, as mesh.extract_faces. -/
def Mesh.extract_faces (m : Mesh) (idx : List Nat) : Mesh :=
  ⟨idx.filterMap (fun i => m.faces.get? i)⟩

/-- Values of the free algebra recording the scalar products that the solver
forms between interpreted complex data and the possibly symbolic frequency
factors. The symbolic multiplication wrapper is an external sealed numeric
type (specification boundary), so these products are recorded as terms. -/
inductive SVal where
  | presTerm : Xf → Int → Cx → SVal
  | presFwd : SVal → Int → Int → Cx → SVal
  | fseLegacyTerm : Xf → Int → Cx → SVal
  | fseTerm : Xf → Int → Cx → SVal
  | fseFwd : SVal → Int → Int → Cx → SVal
deriving DecidableEq, Repr

/-- The body attached to a problem: a hull mesh, an optional lid mesh, the
estimate of the first irregular frequency (a function of g), and the pressure
integration capability (external), returning an abstract force descriptor. -/
structure FloatingBody where
  mesh : Mesh
  lid_mesh : Option Mesh
  first_irregular_frequency_estimate : Int → Xf
  integrate_pressure : List SVal → Int

/-- Hull mesh with the lid mesh appended after it, when there is one, as
body.mesh_including_lid in the source. -/
def FloatingBody.mesh_including_lid (b : FloatingBody) : Mesh :=
  match b.lid_mesh with
  | none => b.mesh
  | some lid => ⟨b.mesh.faces ++ lid.faces⟩

/-- External problem data class: the physical parameters that the solver
orchestration reads. The rank field models the total order on problems used
by the Python sorted built in. The is_diffraction flag marks the DiffractionProblem
variant, which carries an encounter frequency. -/
structure ProblemData where
  rank : Int
  body : FloatingBody
  is_diffraction : Bool
  omega : Xf
  encounter_omega : Xf
  wavenumber : Xf
  encounter_wavenumber : Xf
  free_surface : Xf
  water_depth : Xf
  g : Int
  rho : Int
  forward_speed : Int
  boundary_condition : List Cx

/-- Result of a successful solve. The stored details are None when
keep_details is false; the forces field records the output of the external
pressure integration. fs_elevation is the legacy free surface elevation
cache, keyed by the identity of the free surface object. -/
structure ResultData where
  problem : ProblemData
  sources : Option (List Cx)
  potential : Option (List Cx)
  pressure : Option (List SVal)
  forces : Int
  fs_elevation : List (Nat × List SVal)

def ResultData.body (r : ResultData) : FloatingBody := r.problem.body
def ResultData.omega (r : ResultData) : Xf := r.problem.omega
def ResultData.encounter_omega (r : ResultData) : Xf := r.problem.encounter_omega
def ResultData.wavenumber (r : ResultData) : Xf := r.problem.wavenumber
def ResultData.encounter_wavenumber (r : ResultData) : Xf := r.problem.encounter_wavenumber
def ResultData.free_surface (r : ResultData) : Xf := r.problem.free_surface
def ResultData.water_depth (r : ResultData) : Xf := r.problem.water_depth
def ResultData.g (r : ResultData) : Int := r.problem.g
def ResultData.rho (r : ResultData) : Int := r.problem.rho
def ResultData.forward_speed (r : ResultData) : Int := r.problem.forward_speed

/-- Either a normal result or a FailedLinearPotentialFlowResult wrapping the
raised exception together with the problem it came from. -/
inductive ResultOrFailed where
  | ok : ResultData → ResultOrFailed
  | failed : PyError → ProblemData → ResultOrFailed

/-- Originating problem of an element of a batch output. -/
def ResultOrFailed.problem : ResultOrFailed → ProblemData
  | .ok r => r.problem
  | .failed _ p => p

def ResultOrFailed.isFailed : ResultOrFailed → Bool
  | .ok _ => false
  | .failed _ _ => true

/-- External Greens function evaluator, at its interface: influence
coefficients between one target point or face and one source face, for the
single layer operator, the double layer operator (adjoint or not), and the
gradient of the single layer operator. The three Xf arguments are the free
surface level, the water depth and the wavenumber. -/
structure GreenFunction where
  coeff : Xf → Xf → Xf → Int → Int → Cx
  dcoeff : Bool → Xf → Xf → Xf → Int → Int → Cx
  gradCoeff : Xf → Xf → Xf → Int → Int → Cx × Cx × Cx

/-- External matrix engine: owns the linear solver. Matrix building is
modelled below by pointwise kernel evaluation over mesh pairs. -/
structure Engine where
  linear_solver : List (List Cx) → List Cx → List Cx

/-- Single layer matrix rows for a list of target points against the faces of
a source mesh, as green_function.evaluate and engine.build_S_matrix. -/
def evalS (gf : GreenFunction) (points : List Int) (m : Mesh) (fs wd wn : Xf) :
    List (List Cx) :=
  points.map (fun pt => m.faces.map (fun fj => gf.coeff fs wd wn pt fj))

/-- S block of engine.build_matrices and engine.build_S_matrix. -/
def build_S_matrix (gf : GreenFunction) (m1 m2 : Mesh) (fs wd wn : Xf) :
    List (List Cx) :=
  evalS gf m1.faces m2 fs wd wn

/-- D or K block of engine.build_matrices; the flag selects the adjoint
double layer operator. -/
def build_DK_matrix (gf : GreenFunction) (adjoint : Bool) (m1 m2 : Mesh)
    (fs wd wn : Xf) : List (List Cx) :=
  m1.faces.map (fun fi => m2.faces.map (fun fj => gf.dcoeff adjoint fs wd wn fi fj))

/-- Gradient of the potential of a source distribution at a list of points:
the einsum of line 419 of the source, one contracted dot product per spatial
axis and per point. -/
def gradMatvec (gf : GreenFunction) (points : List Int) (m : Mesh)
    (fs wd wn : Xf) (sources : List Cx) : List (Cx × Cx × Cx) :=
  points.map (fun pt =>
    (dotC (m.faces.map (fun fj => (gf.gradCoeff fs wd wn pt fj).1)) sources,
     dotC (m.faces.map (fun fj => (gf.gradCoeff fs wd wn pt fj).2.1)) sources,
     dotC (m.faces.map (fun fj => (gf.gradCoeff fs wd wn pt fj).2.2)) sources))

/-- Solver state: the two swappable external capabilities and the validated
resolution method. The timing ledger is threaded explicitly as a counter. -/
structure BEMSolver where
  green_function : GreenFunction
  engine : Engine
  method : String

/-- Constructor of BEMSolver, lines 58 to 64 of the source: the method string
is lower cased and validated against the two legal values. -/
def mkBEMSolver (gf : GreenFunction) (engine : Engine) (method : String) :
    Except PyError BEMSolver :=
  if ["direct", "indirect"].contains (pyLower method) then
    .ok { green_function := gf, engine := engine, method := pyLower method }
  else
    .error (.valueError invalid_init_method_msg)

/-- Lines 241 to 251 of the source: resolution of the progress bar flag. The
explicit argument wins; otherwise the environment variable
CAPYTAINE_PROGRESS_BAR (modelled by the env argument, None when unset) is
lower cased and matched against the two recognized sets of values, any other
value raising a ValueError; otherwise the default is true. -/
def resolve_progress_bar (progress_bar : Option Bool) (env : Option String) :
    Except PyError Bool :=
  match progress_bar with
  | some b => .ok b
  | none =>
    match env with
    | some s =>
      let v := pyLower s
      if ["true", "1", "t"].contains v then .ok true
      else if ["false", "0", "f"].contains v then .ok false
      else .error (.valueError invalid_progress_bar_env_msg)
    | none => .ok true

/-- Riskiness test of lines 305 to 307 of the source: finite free surface and
driving frequency strictly between the estimated first irregular frequency of
the body and infinity. -/
def irregular_risky (pb : ProblemData) : Bool :=
  pb.free_surface != Xf.inf
    && Xf.lt (pb.body.first_irregular_frequency_estimate pb.g) pb.omega
    && Xf.lt pb.omega Xf.inf

/-- Recommendation attached to the aggregated irregular frequency warning. -/
inductive LidAdvice where
  | addLid : LidAdvice
  | moveLidCloser : LidAdvice
deriving DecidableEq, Repr

/-- Lines 301 to 330 of the source: the irregular frequency check. It only
logs, never raises; we model its observable content, namely whether a warning
is emitted and which recommendation the warning carries. The recommendation
to add a lid is chosen when any problem of the batch has a body without a
lid mesh (line 310). -/
def irregular_frequencies_check (problems : List ProblemData) : Option LidAdvice :=
  let risky_problems := problems.filter irregular_risky
  if risky_problems.length ≥ 1 then
    some (if problems.any (fun pb => pb.body.lid_mesh.isNone) then LidAdvice.addLid
          else LidAdvice.moveLidCloser)
  else
    none

/-- Lines 397 to 406 of the source. The external point normalization utility
is modelled as the identity on an already flat list of point descriptors. -/
def compute_potential (slv : BEMSolver) (points : List Int) (r : ResultData) :
    Except PyError (List Cx) :=
  match r.sources with
  | none => .error (.exception sources_missing_full_msg)
  | some sources =>
    .ok (matvec (evalS slv.green_function points r.body.mesh_including_lid
                  r.free_surface r.water_depth r.encounter_wavenumber) sources)

/-- Lines 408 to 420 of the source, named _compute_potential_gradient there.
Note that its missing-sources message differs from the one of
compute_potential: it only mentions the keep_details option. -/
def compute_potential_gradient (slv : BEMSolver) (points : List Int)
    (r : ResultData) : Except PyError (List (Cx × Cx × Cx)) :=
  match r.sources with
  | none => .error (.exception sources_missing_details_msg)
  | some sources =>
    .ok (gradMatvec slv.green_function points r.body.mesh_including_lid
          r.free_surface r.water_depth r.encounter_wavenumber sources)

/-- Lines 422 to 444 of the source: velocity is the potential gradient with
the x component offset by the forward speed when it is nonzero. -/
def compute_velocity (slv : BEMSolver) (points : List Int) (r : ResultData) :
    Except PyError (List (Cx × Cx × Cx)) :=
  match compute_potential_gradient slv points r with
  | .error e => .error e
  | .ok nabla_phi =>
    if r.forward_speed != 0 then
      .ok (nabla_phi.map (fun v => (csub v.1 (r.forward_speed, 0), v.2.1, v.2.2)))
    else
      .ok nabla_phi

/-- Lines 446 to 471 of the source. -/
def compute_pressure (slv : BEMSolver) (points : List Int) (r : ResultData) :
    Except PyError (List SVal) :=
  if r.forward_speed != 0 then
    match compute_potential slv points r with
    | .error e => .error e
    | .ok phi =>
      match compute_potential_gradient slv points r with
      | .error e => .error e
      | .ok nabla_phi =>
        .ok (List.zipWith
              (fun p d => SVal.presFwd (SVal.presTerm r.encounter_omega r.rho p)
                            r.rho r.forward_speed d.1)
              phi nabla_phi)
  else
    match compute_potential slv points r with
    | .error e => .error e
    | .ok phi => .ok (phi.map (fun p => SVal.presTerm r.omega r.rho p))

/-- Lines 474 to 502 of the source. The external free surface point
normalization is modelled as the identity on a flat point list. -/
def compute_free_surface_elevation (slv : BEMSolver) (points : List Int)
    (r : ResultData) : Except PyError (List SVal) :=
  if r.forward_speed != 0 then
    match compute_potential slv points r with
    | .error e => .error e
    | .ok phi =>
      match compute_potential_gradient slv points r with
      | .error e => .error e
      | .ok nabla_phi =>
        .ok (List.zipWith
              (fun p d => SVal.fseFwd (SVal.fseTerm r.encounter_omega r.g p)
                            r.g r.forward_speed d.1)
              phi nabla_phi)
  else
    match compute_potential slv points r with
    | .error e => .error e
    | .ok phi => .ok (phi.map (fun p => SVal.fseTerm r.omega r.g p))

/-- Result construction of lines 186 to 192 of the source: pressure is
truncated to the faces of the hull mesh before the external pressure
integration, and the details are stored only when keep_details is true. -/
def mk_result (p : ProblemData) (keep_details : Bool)
    (sources : Option (List Cx)) (potential : List Cx) (pressure : List SVal) :
    ResultData :=
  let pressure_on_hull := pressure.take p.body.mesh.nb_faces
  let forces := p.body.integrate_pressure pressure_on_hull
  if keep_details then
    { problem := p, sources := sources, potential := some potential,
      pressure := some pressure, forces := forces, fs_elevation := [] }
  else
    { problem := p, sources := none, potential := none, pressure := none,
      forces := forces, fs_elevation := [] }

/-- Direct branch of solve, lines 147 to 164 of the source. -/
def solve_direct_branch (slv : BEMSolver) (p : ProblemData)
    (keep_details : Bool) (omega wavenumber : Xf) : Except PyError ResultData :=
  if p.forward_speed != 0 then
    .error (.notImplementedError direct_forward_speed_msg)
  else
    let m := p.body.mesh_including_lid
    let S := build_S_matrix slv.green_function m m p.free_surface p.water_depth wavenumber
    let D := build_DK_matrix slv.green_function false m m p.free_surface p.water_depth wavenumber
    let rhs := matvec S p.boundary_condition
    let potential := slv.engine.linear_solver D rhs
    if potential.length != p.boundary_condition.length then
      .error (.valueError linear_solver_shape_msg)
    else
      let pressure := potential.map (fun phi => SVal.presTerm omega p.rho phi)
      .ok (mk_result p keep_details none potential pressure)

/-- Indirect branch of solve, lines 165 to 184 of the source. The temporary
result object of line 181 carries only the sources and is used to evaluate
the potential gradient for the forward speed pressure correction. -/
def solve_indirect_branch (slv : BEMSolver) (p : ProblemData)
    (keep_details : Bool) (omega wavenumber : Xf) : Except PyError ResultData :=
  let m := p.body.mesh_including_lid
  let S := build_S_matrix slv.green_function m m p.free_surface p.water_depth wavenumber
  let K := build_DK_matrix slv.green_function true m m p.free_surface p.water_depth wavenumber
  let sources := slv.engine.linear_solver K p.boundary_condition
  if sources.length != p.boundary_condition.length then
    .error (.valueError linear_solver_shape_msg)
  else
    let potential := matvec S sources
    let pressure := potential.map (fun phi => SVal.presTerm omega p.rho phi)
    if p.forward_speed != 0 then
      let tmp : ResultData :=
        { problem := p, sources := some sources, potential := none,
          pressure := none, forces := 0, fs_elevation := [] }
      match compute_potential_gradient slv m.faces tmp with
      | .error e => .error e
      | .ok nabla_phi =>
        let pressure2 := List.zipWith
          (fun pr d => SVal.presFwd pr p.rho p.forward_speed d.1) pressure nabla_phi
        .ok (mk_result p keep_details (some sources) potential pressure2)
    else
      .ok (mk_result p keep_details (some sources) potential pressure)

/-- Test of line 130 of the source: a DiffractionProblem whose encounter
frequency converts to exactly 0.0 or numpy positive infinity. -/
def bad_diffraction (p : ProblemData) : Bool :=
  p.is_diffraction && (p.encounter_omega == Xf.fin 0 || p.encounter_omega == Xf.inf)

/-- Frequency selection of lines 140 to 143 of the source: the encounter
frame angular frequency is used exactly when the forward speed is nonzero. -/
def effective_omega (p : ProblemData) : Xf :=
  if p.forward_speed != 0 then p.encounter_omega else p.omega

/-- Wavenumber selection of lines 140 to 143 of the source. -/
def effective_wavenumber (p : ProblemData) : Xf :=
  if p.forward_speed != 0 then p.encounter_wavenumber else p.wavenumber

/-- Lines 101 to 196 of the source: solve one problem. The two diagnostic
checks of lines 126 to 128 only log warnings and have no other observable
effect, so they do not appear here. A diffraction problem whose encounter
frequency converts to exactly zero or positive infinity is rejected with a
ValueError. The frequency pair is the encounter one exactly when the forward
speed is nonzero. The per call method argument overrides the solver default
and the direct branch is taken exactly when the effective method is the
string direct, with no lower casing nor validation. -/
def solve (slv : BEMSolver) (p : ProblemData) (method : Option String)
    (keep_details : Bool) : Except PyError ResultData :=
  if bad_diffraction p then
    .error (.valueError degenerate_diffraction_msg)
  else if method.getD slv.method == "direct" then
    solve_direct_branch slv p keep_details (effective_omega p) (effective_wavenumber p)
  else
    solve_indirect_branch slv p keep_details (effective_omega p) (effective_wavenumber p)

/-- Lines 198 to 206 of the source: the failure isolating wrapper. Any
exception raised by solve is converted into a failed result wrapping the
exception and the problem. -/
def solve_and_catch_errors (slv : BEMSolver) (p : ProblemData)
    (method : Option String) (keep_details : Bool) : ResultOrFailed :=
  match solve slv p method keep_details with
  | .ok r => .ok r
  | .error e => .failed e p

/-- The total order on problems used by sorted(problems) at line 254, through
the sortable key of the external problem class. -/
def prob_le (p q : ProblemData) : Prop := p.rank ≤ q.rank

instance : DecidableRel prob_le := fun p q => Int.decLe p.rank q.rank

/-- sorted(problems): a stable sort by the total order on problems, as the
Python built in sorted. -/
def sortProblems (problems : List ProblemData) : List ProblemData :=
  problems.insertionSort prob_le

/-- Lines 208 to 271 of the source: batch resolution. Only the sequential
branch is executable inside the core; the parallel branch delegates to the
external joblib executor and grouping policy, of which we model the only
behaviour fully owned by the core, namely the hard ImportError when the
optional dependency is missing. The two diagnostic checks only log. The
ledger argument is the call counter of the Solve total timer; each solve call
is wrapped by the timer, and the configuration error of the progress bar
resolution is raised before any problem is solved, so it leaves the ledger
unchanged. -/
def solve_all (slv : BEMSolver) (problems : List ProblemData)
    (method : Option String) (n_jobs : Int) (progress_bar : Option Bool)
    (keep_details : Bool) (env : Option String) (ledger : Nat) :
    Except PyError (List ResultOrFailed) × Nat :=
  match resolve_progress_bar progress_bar env with
  | .error e => (.error e, ledger)
  | .ok _ =>
    if n_jobs == 1 then
      let sorted_problems := sortProblems problems
      (.ok (sorted_problems.map (fun pb => solve_and_catch_errors slv pb method keep_details)),
       ledger + sorted_problems.length)
    else
      (.error (.importError missing_joblib_msg), ledger)

/-- Chunked evaluation loop of lines 549 to 559 of the source. The loop
extracts the contiguous slice of chunk many faces starting at the current
index, builds the single layer block for the slice against the lid inclusive
source mesh, and applies it to the sources; the recursion consumes the face
list of the target mesh slice by slice. -/
def chunkedPhi (gf : GreenFunction) (srcMesh : Mesh) (fs wd wn : Xf)
    (sources : List Cx) (chunk : Nat) : List Int → List Cx
  | [] => []
  | f :: rest =>
    matvec (evalS gf (f :: rest.take (chunk - 1)) srcMesh fs wd wn) sources
      ++ chunkedPhi gf srcMesh fs wd wn sources chunk (rest.drop (chunk - 1))
termination_by faces => faces.length
decreasing_by simp [List.length_drop]; omega

/-- Branch predicate of line 540 of the source: the unchunked path is taken
exactly when chunk_size exceeds the number of faces of the target mesh. -/
def unchunked_path_taken (chunk_size nb_faces : Nat) : Bool :=
  decide (nb_faces < chunk_size)

/-- Lines 507 to 563 of the source: legacy potential evaluation on a mesh.
Uses the stored wavenumber of the result, not the encounter wavenumber. With
chunk_size zero the Python range call raises a ValueError; this is modelled
for totality but never exercised by the claims. -/
def get_potential_on_mesh (slv : BEMSolver) (r : ResultData) (mesh : Mesh)
    (chunk_size : Nat) : Except PyError (List Cx) :=
  match r.sources with
  | none => .error (.exception sources_missing_full_msg)
  | some sources =>
    if unchunked_path_taken chunk_size mesh.nb_faces then
      .ok (matvec (build_S_matrix slv.green_function mesh r.body.mesh_including_lid
                    r.free_surface r.water_depth r.wavenumber) sources)
    else if chunk_size == 0 then
      .error (.valueError "range arg 3 must not be zero")
    else
      .ok (chunkedPhi slv.green_function r.body.mesh_including_lid
            r.free_surface r.water_depth r.wavenumber sources chunk_size mesh.faces)

/-- A meshed free surface with a stable identity used as the key of the
legacy elevation cache of the result. -/
structure FreeSurface where
  id : Nat
  mesh : Mesh
deriving DecidableEq, Repr

/-- Lines 565 to 594 of the source: legacy free surface elevation. Nonzero
forward speed is rejected before anything is computed; on success the
elevation may be cached into the result keyed by the free surface identity.
The function returns the possibly updated result alongside its output, the
input result being returned unchanged on any error. -/
def get_free_surface_elevation (slv : BEMSolver) (r : ResultData)
    (free_surface : FreeSurface) (keep_details : Bool) :
    Except PyError (List SVal) × ResultData :=
  if r.forward_speed != 0 then
    (.error (.notImplementedError legacy_fse_forward_speed_msg), r)
  else
    match get_potential_on_mesh slv r free_surface.mesh 50 with
    | .error e => (.error e, r)
    | .ok phi =>
      let fs_elevation := phi.map (fun p => SVal.fseLegacyTerm r.omega r.g p)
      if keep_details then
        (.ok fs_elevation,
         { r with fs_elevation := (free_surface.id, fs_elevation) :: r.fs_elevation })
      else
        (.ok fs_elevation, r)

/-- Concrete Greens function instance used to settle the theorems on closed
inputs. -/
def wGF : GreenFunction where
  coeff := fun _ _ _ pt fj => (pt + fj, 0)
  dcoeff := fun _ _ _ _ _ _ => (1, 0)
  gradCoeff := fun _ _ _ pt fj => ((pt - fj, 0), (0, 0), (0, 0))

/-- Concrete engine instance whose linear solver returns its right hand side,
so that the output shape always matches the expected one. -/
def wEngine : Engine where
  linear_solver := fun _ rhs => rhs

/-- Concrete solver instance with the default indirect method. -/
def wSolver : BEMSolver where
  green_function := wGF
  engine := wEngine
  method := "indirect"

def wMesh : Mesh := ⟨[10, 11]⟩

/-- Concrete body without a lid. -/
def wBody : FloatingBody where
  mesh := wMesh
  lid_mesh := none
  first_irregular_frequency_estimate := fun _ => Xf.fin 1
  integrate_pressure := fun pres => Int.ofNat pres.length

/-- Concrete body carrying a lid mesh of one face. -/
def wLidBody : FloatingBody where
  mesh := wMesh
  lid_mesh := some ⟨[12]⟩
  first_irregular_frequency_estimate := fun _ => Xf.fin 1
  integrate_pressure := fun pres => Int.ofNat pres.length

/-- Concrete well posed radiation problem; its boundary condition has one
entry per face of the lid inclusive mesh. -/
def wProblem : ProblemData where
  rank := 0
  body := wBody
  is_diffraction := false
  omega := Xf.fin 2
  encounter_omega := Xf.fin 2
  wavenumber := Xf.fin 1
  encounter_wavenumber := Xf.fin 1
  free_surface := Xf.fin 0
  water_depth := Xf.inf
  g := 10
  rho := 1000
  forward_speed := 0
  boundary_condition := [(1, 0), (0, 1)]

/-- Diffraction problem with zero encounter frequency. -/
def wBadDiffraction : ProblemData :=
  { wProblem with
    rank := 1
    is_diffraction := true
    encounter_omega := Xf.fin 0 }

/-- Copy of the valid problem placed later in the total problem order. -/
def wRankOne : ProblemData := { wProblem with rank := 1 }

/-- Diffraction problem with nonzero forward speed whose encounter frequency
is exactly zero, as realized for omega equal to the product of the wavenumber
and the forward speed. -/
def wSpeedDiffraction : ProblemData :=
  { wProblem with
    is_diffraction := true
    forward_speed := 1
    encounter_omega := Xf.fin 0 }

/-- Radiation problem with nonzero forward speed. -/
def wSpeedRadiation : ProblemData := { wProblem with forward_speed := 1 }

/-- Result carrying a source distribution over the two faces of the mesh. -/
def wSourcesResult : ResultData where
  problem := wProblem
  sources := some [(1, 0), (2, 0)]
  potential := none
  pressure := none
  forces := 0
  fs_elevation := []

/-- Result without a stored source distribution. -/
def wNoSourcesResult : ResultData := { wSourcesResult with sources := none }

/-- Result with nonzero forward speed. -/
def wSpeedResult : ResultData := { wSourcesResult with problem := wSpeedRadiation }

/-- Risky problem whose body has a lid. -/
def wRiskyLidProblem : ProblemData :=
  { wProblem with body := wLidBody, omega := Xf.fin 5 }

/-- Concrete free surface object for the legacy elevation evaluation. -/
def wFreeSurface : FreeSurface := ⟨0, ⟨[20, 21]⟩⟩

/-! Helper lemmas shared by the claim theorems. -/

theorem mk_result_problem (p : ProblemData) (kd : Bool) (s : Option (List Cx))
    (pot : List Cx) (pres : List SVal) : (mk_result p kd s pot pres).problem = p := by
  unfold mk_result
  cases kd <;> rfl

theorem mk_result_forces (p : ProblemData) (kd : Bool) (s : Option (List Cx))
    (pot : List Cx) (pres : List SVal) :
    (mk_result p kd s pot pres).forces
      = p.body.integrate_pressure (pres.take p.body.mesh.nb_faces) := by
  unfold mk_result
  cases kd <;> rfl

theorem mk_result_pressure (p : ProblemData) (s : Option (List Cx))
    (pot : List Cx) (pres : List SVal) :
    (mk_result p true s pot pres).pressure = some pres := rfl

theorem mk_result_potential (p : ProblemData) (s : Option (List Cx))
    (pot : List Cx) (pres : List SVal) :
    (mk_result p true s pot pres).potential = some pot := rfl

theorem matvec_length (m : List (List Cx)) (v : List Cx) :
    (matvec m v).length = m.length := by
  simp [matvec]

theorem evalS_length (gf : GreenFunction) (points : List Int) (m : Mesh)
    (fs wd wn : Xf) : (evalS gf points m fs wd wn).length = points.length := by
  simp [evalS]

theorem gradMatvec_length (gf : GreenFunction) (points : List Int) (m : Mesh)
    (fs wd wn : Xf) (s : List Cx) :
    (gradMatvec gf points m fs wd wn s).length = points.length := by
  simp [gradMatvec]

theorem solve_direct_branch_ok (slv : BEMSolver) (p : ProblemData) (kd : Bool)
    (omega wavenumber : Xf) (r : ResultData)
    (h : solve_direct_branch slv p kd omega wavenumber = .ok r) : r.problem = p := by
  unfold solve_direct_branch at h
  dsimp only at h
  split at h
  · exact absurd h (by simp)
  · split at h
    · exact absurd h (by simp)
    · rw [Except.ok.injEq] at h
      rw [← h, mk_result_problem]

theorem solve_indirect_branch_ok (slv : BEMSolver) (p : ProblemData) (kd : Bool)
    (omega wavenumber : Xf) (r : ResultData)
    (h : solve_indirect_branch slv p kd omega wavenumber = .ok r) : r.problem = p := by
  unfold solve_indirect_branch at h
  dsimp only at h
  split at h
  · exact absurd h (by simp)
  · split at h
    · simp only [compute_potential_gradient] at h
      rw [Except.ok.injEq] at h
      rw [← h, mk_result_problem]
    · rw [Except.ok.injEq] at h
      rw [← h, mk_result_problem]

theorem solve_ok_problem (slv : BEMSolver) (p : ProblemData)
    (method : Option String) (kd : Bool) (r : ResultData)
    (h : solve slv p method kd = .ok r) : r.problem = p := by
  unfold solve at h
  split at h
  · exact absurd h (by simp)
  · split at h
    · exact solve_direct_branch_ok _ _ _ _ _ _ h
    · exact solve_indirect_branch_ok _ _ _ _ _ _ h

theorem solveCatch_problem (slv : BEMSolver) (p : ProblemData)
    (method : Option String) (kd : Bool) :
    (solve_and_catch_errors slv p method kd).problem = p := by
  unfold solve_and_catch_errors
  cases h : solve slv p method kd with
  | ok r => simpa [ResultOrFailed.problem] using solve_ok_problem slv p method kd r h
  | error e => rfl

theorem solve_of_bad_diffraction (slv : BEMSolver) (p : ProblemData)
    (method : Option String) (kd : Bool) (h : bad_diffraction p = true) :
    solve slv p method kd = .error (.valueError degenerate_diffraction_msg) := by
  unfold solve
  rw [if_pos h]

theorem sortProblems_perm (problems : List ProblemData) :
    (sortProblems problems).Perm problems :=
  List.perm_insertionSort prob_le problems

theorem solve_all_seq (slv : BEMSolver) (problems : List ProblemData)
    (method : Option String) (pb : Option Bool) (kd : Bool) (env : Option String)
    (ledger : Nat) (b : Bool) (h : resolve_progress_bar pb env = .ok b) :
    solve_all slv problems method 1 pb kd env ledger
      = (.ok ((sortProblems problems).map (fun q => solve_and_catch_errors slv q method kd)),
         ledger + (sortProblems problems).length) := by
  unfold solve_all
  rw [h]
  rfl

theorem solveCatch_map_problem (slv : BEMSolver) (l : List ProblemData)
    (method : Option String) (kd : Bool) :
    (l.map (fun q => solve_and_catch_errors slv q method kd)).map ResultOrFailed.problem = l := by
  rw [List.map_map]
  have : (ResultOrFailed.problem ∘ fun q => solve_and_catch_errors slv q method kd)
      = fun q => q := by
    funext q
    exact solveCatch_problem slv q method kd
  rw [this]
  simp

/-- C3: with progress_bar equal to None, the environment variable is read
case insensitively: true, 1 and t enable the bar, false, 0 and f disable it,
any other value raises a ValueError out of solve_all before any problem is
solved and with the timer ledger unchanged, an unset variable defaults to
true, and an explicit progress_bar argument wins and bypasses the
environment. -/
theorem progress_bar_env_semantics (slv : BEMSolver) (problems : List ProblemData)
    (method : Option String) (kd : Bool) (ledger : Nat) (s : String) :
    (pyLower s ∈ (["true", "1", "t"] : List String) →
        resolve_progress_bar none (some s) = .ok true)
    ∧ (pyLower s ∈ (["false", "0", "f"] : List String) →
        resolve_progress_bar none (some s) = .ok false)
    ∧ (pyLower s ∉ (["true", "1", "t"] : List String) →
        pyLower s ∉ (["false", "0", "f"] : List String) →
        resolve_progress_bar none (some s)
            = .error (.valueError invalid_progress_bar_env_msg)
        ∧ ∀ n_jobs : Int, solve_all slv problems method n_jobs none kd (some s) ledger
            = (.error (.valueError invalid_progress_bar_env_msg), ledger))
    ∧ resolve_progress_bar none none = .ok true
    ∧ ∀ (b : Bool) (env : Option String), resolve_progress_bar (some b) env = .ok b := by
  refine ⟨?_, ?_, ?_, rfl, fun b env => rfl⟩
  · intro hmem
    simp only [resolve_progress_bar]
    rw [if_pos (by simp [hmem])]
  · intro hmem
    have hval : pyLower s = "false" ∨ pyLower s = "0" ∨ pyLower s = "f" := by
      simpa using hmem
    have hne : pyLower s ∉ (["true", "1", "t"] : List String) := by
      rcases hval with h | h | h <;> rw [h] <;> decide
    simp only [resolve_progress_bar]
    rw [if_neg (by simp [hne]), if_pos (by simp [hmem])]
  · intro h1 h2
    have herr : resolve_progress_bar none (some s)
        = .error (.valueError invalid_progress_bar_env_msg) := by
      simp only [resolve_progress_bar]
      rw [if_neg (by simp [h1]), if_neg (by simp [h2])]
    refine ⟨herr, ?_⟩
    intro n_jobs
    unfold solve_all
    rw [herr]

/-- Witness for C3 on concrete environment values. -/
theorem progress_bar_env_semantics_witness :
    resolve_progress_bar none (some "TRUE") = .ok true
    ∧ resolve_progress_bar none (some "F") = .ok false
    ∧ resolve_progress_bar none (some "banana")
        = .error (.valueError invalid_progress_bar_env_msg)
    ∧ solve_all wSolver [wProblem] none 1 none true (some "banana") 7
        = (.error (.valueError invalid_progress_bar_env_msg), 7) := by
  refine ⟨?_, ?_, ?_, ?_⟩
  · exact (progress_bar_env_semantics wSolver [wProblem] none true 7 "TRUE").1 (by decide)
  · exact (progress_bar_env_semantics wSolver [wProblem] none true 7 "F").2.1 (by decide)
  · exact ((progress_bar_env_semantics wSolver [wProblem] none true 7 "banana").2.2.1
      (by decide) (by decide)).1
  · exact ((progress_bar_env_semantics wSolver [wProblem] none true 7 "banana").2.2.1
      (by decide) (by decide)).2 1

/-- C8: the legacy free surface elevation rejects any result with nonzero
forward speed with a NotImplementedError, for every free surface and
keep_details argument, before computing anything and returning the result
object unchanged. -/
theorem legacy_fse_forward_speed_always_raises (slv : BEMSolver) (r : ResultData)
    (fs : FreeSurface) (kd : Bool) (h : r.forward_speed ≠ 0) :
    get_free_surface_elevation slv r fs kd
      = (.error (.notImplementedError legacy_fse_forward_speed_msg), r) := by
  unfold get_free_surface_elevation
  rw [if_pos (by simpa using h)]

/-- Witness for C8 on a concrete forward speed result. -/
theorem legacy_fse_forward_speed_witness :
    wSpeedResult.forward_speed ≠ 0
    ∧ get_free_surface_elevation wSolver wSpeedResult wFreeSurface false
        = (.error (.notImplementedError legacy_fse_forward_speed_msg), wSpeedResult)
    ∧ get_free_surface_elevation wSolver wSpeedResult wFreeSurface true
        = (.error (.notImplementedError legacy_fse_forward_speed_msg), wSpeedResult) :=
  ⟨by decide,
   legacy_fse_forward_speed_always_raises wSolver wSpeedResult wFreeSurface false (by decide),
   legacy_fse_forward_speed_always_raises wSolver wSpeedResult wFreeSurface true (by decide)⟩

/-- C10: a per call method string other than exactly the lowercase direct is
neither lower cased nor validated: solve silently behaves exactly as with the
indirect method and raises no configuration error, although the constructor
does validate its method argument. -/
theorem per_call_method_not_validated (slv : BEMSolver) (p : ProblemData)
    (kd : Bool) (s : String) (hs : s ≠ "direct") :
    solve slv p (some s) kd = solve slv p (some "indirect") kd
    ∧ ((some s).getD slv.method == "direct") = false
    ∧ ∀ (gf : GreenFunction) (eng : Engine) (m : String),
        pyLower m ∉ (["direct", "indirect"] : List String) →
        mkBEMSolver gf eng m = .error (.valueError invalid_init_method_msg) := by
  have hbeq : (s == "direct") = false := beq_eq_false_iff_ne.mpr hs
  refine ⟨?_, by simpa using hs, ?_⟩
  · unfold solve
    have h2 : ("indirect" == "direct") = false := rfl
    simp only [Option.getD_some, hbeq, h2]
  · intro gf eng m hm
    unfold mkBEMSolver
    rw [if_neg (by simpa using hm)]

/-- Witness for C10 on the concrete strings Direct and banana. -/
theorem per_call_method_not_validated_witness :
    solve wSolver wProblem (some "Direct") true = solve wSolver wProblem (some "indirect") true
    ∧ mkBEMSolver wGF wEngine "banana" = .error (.valueError invalid_init_method_msg) :=
  ⟨(per_call_method_not_validated wSolver wProblem true "Direct" (by decide)).1,
   (per_call_method_not_validated wSolver wProblem true "Direct" (by decide)).2.2
     wGF wEngine "banana" (by decide)⟩

/-- Counterexample for C2: with the valid problems wRankOne and wProblem
submitted in that order, the sequential batch output lists the result of
wProblem first, because solve_all sorts the problems before solving; the
first output is therefore not the result of the first input. -/
theorem solve_all_input_order_counterexample :
    ∃ rs, (solve_all wSolver [wRankOne, wProblem] none 1 none true none 0).1 = .ok rs
      ∧ (rs.map ResultOrFailed.problem).map ProblemData.rank = [0, 1]
      ∧ [wRankOne, wProblem].map ProblemData.rank = [1, 0] :=
  ⟨_, rfl, by decide, by decide⟩

/-- C2 amended: the sequential batch output follows the order of the
problems sorted by their total order, one result per sorted problem in
position; it coincides with the input order exactly on already sorted
inputs. -/
theorem solve_all_sorted_order (slv : BEMSolver) (problems : List ProblemData)
    (method : Option String) (kd : Bool) (ledger : Nat) :
    ∃ rs, (solve_all slv problems method 1 none kd none ledger).1 = .ok rs
      ∧ rs = (sortProblems problems).map (fun q => solve_and_catch_errors slv q method kd)
      ∧ rs.map ResultOrFailed.problem = sortProblems problems
      ∧ (List.Sorted prob_le problems → rs.map ResultOrFailed.problem = problems) := by
  refine ⟨_, ?_, rfl, ?_, ?_⟩
  · rw [solve_all_seq slv problems method none kd none ledger true rfl]
  · exact solveCatch_map_problem slv (sortProblems problems) method kd
  · intro hsorted
    rw [solveCatch_map_problem slv (sortProblems problems) method kd]
    exact hsorted.insertionSort_eq

/-- Witness for C2 amended on a concrete already sorted batch. -/
theorem solve_all_sorted_order_witness :
    ∃ rs, (solve_all wSolver [wProblem, wRankOne] none 1 none true none 0).1 = .ok rs
      ∧ rs.map ResultOrFailed.problem = [wProblem, wRankOne] := by
  obtain ⟨rs, h1, _, _, h4⟩ := solve_all_sorted_order wSolver [wProblem, wRankOne] none true 0
  have hsorted : List.Sorted prob_le [wProblem, wRankOne] := by
    rw [List.sorted_cons]
    constructor
    · intro b hb
      rw [List.mem_singleton.mp hb]
      decide
    · exact List.sorted_singleton _
  exact ⟨rs, h1, h4 hsorted⟩

/-- C1: solve rejects every diffraction problem with an encounter frequency
of exactly zero or infinity with a ValueError; and a sequential batch made of
such problems among otherwise valid ones returns, without any exception
escaping, exactly one result per submitted problem, where each degenerate
diffraction problem yields a FailedResult wrapping the raised ValueError and
every valid problem yields a normal Result. -/
theorem degenerate_diffraction_isolated (slv : BEMSolver) (problems : List ProblemData)
    (method : Option String) (kd : Bool) (ledger : Nat)
    (_hbatch : ∃ p ∈ problems, bad_diffraction p = true)
    (hvalid : ∀ q ∈ problems, bad_diffraction q = false →
        ∃ res, solve slv q method kd = .ok res) :
    (∀ p ∈ problems, bad_diffraction p = true →
        solve slv p method kd = .error (.valueError degenerate_diffraction_msg))
    ∧ ∃ rs, (solve_all slv problems method 1 none kd none ledger).1 = .ok rs
        ∧ rs.length = problems.length
        ∧ (rs.map ResultOrFailed.problem).Perm problems
        ∧ (∀ res ∈ rs, bad_diffraction res.problem = true →
            res = .failed (.valueError degenerate_diffraction_msg) res.problem)
        ∧ (∀ res ∈ rs, bad_diffraction res.problem = false → res.isFailed = false) := by
  constructor
  · intro p _ hp
    exact solve_of_bad_diffraction slv p method kd hp
  · refine ⟨(sortProblems problems).map (fun q => solve_and_catch_errors slv q method kd),
      ?_, ?_, ?_, ?_, ?_⟩
    · rw [solve_all_seq slv problems method none kd none ledger true rfl]
    · rw [List.length_map]
      exact (sortProblems_perm problems).length_eq
    · rw [solveCatch_map_problem slv (sortProblems problems) method kd]
      exact sortProblems_perm problems
    · intro res hres hbad
      obtain ⟨q, hq, hres_eq⟩ := List.mem_map.mp hres
      have hqp : res.problem = q := by
        rw [← hres_eq]
        exact solveCatch_problem slv q method kd
      rw [hqp] at hbad
      have : solve_and_catch_errors slv q method kd
          = .failed (.valueError degenerate_diffraction_msg) q := by
        unfold solve_and_catch_errors
        rw [solve_of_bad_diffraction slv q method kd hbad]
      rw [← hres_eq, this]
      rfl
    · intro res hres hgood
      obtain ⟨q, hq, hres_eq⟩ := List.mem_map.mp hres
      have hqp : res.problem = q := by
        rw [← hres_eq]
        exact solveCatch_problem slv q method kd
      rw [hqp] at hgood
      have hq_mem : q ∈ problems := (sortProblems_perm problems).mem_iff.mp hq
      obtain ⟨resq, hresq⟩ := hvalid q hq_mem hgood
      rw [← hres_eq]
      unfold solve_and_catch_errors
      rw [hresq]
      rfl

/-- Witness for C1: a batch holding one degenerate diffraction problem and
one valid problem. -/
theorem degenerate_diffraction_isolated_witness :
    solve wSolver wBadDiffraction none true
      = .error (.valueError degenerate_diffraction_msg)
    ∧ ∃ rs, (solve_all wSolver [wBadDiffraction, wProblem] none 1 none true none 0).1 = .ok rs
        ∧ rs.length = 2 := by
  have hvalid : ∀ q ∈ [wBadDiffraction, wProblem], bad_diffraction q = false →
      ∃ res, solve wSolver q none true = .ok res := by
    intro q hq hgood
    rcases List.mem_cons.mp hq with h | h
    · rw [h] at hgood
      exact absurd hgood (by decide)
    · rw [List.mem_singleton.mp h]
      exact ⟨_, rfl⟩
  obtain ⟨h1, rs, h2, h3, _⟩ := degenerate_diffraction_isolated wSolver
    [wBadDiffraction, wProblem] none true 0
    ⟨wBadDiffraction, by simp, by decide⟩ hvalid
  exact ⟨h1 wBadDiffraction (by simp) (by decide), rs, h2, by simpa using h3⟩

/-- Counterexample for C4: on a result without stored sources,
compute_velocity raises a data availability error whose message does not
mention the indirect method, only the keep_details option. -/
theorem compute_velocity_remedy_counterexample :
    compute_velocity wSolver [5] wNoSourcesResult
      = .error (.exception sources_missing_details_msg)
    ∧ mentions_full_remedy sources_missing_details_msg = false
    ∧ strContains sources_missing_details_msg "indirect method" = false
    ∧ mentions_full_remedy sources_missing_full_msg = true :=
  ⟨rfl, by decide, by decide, by decide⟩

/-- C4 amended: every field evaluation operation fails with a data
availability error when the result holds no sources; the messages of
compute_potential, compute_pressure, compute_free_surface_elevation and
get_potential_on_mesh spell out the full remedy of re-solving with the
indirect method and keep_details=True, while the message raised through
compute_velocity recommends only keep_details=True. -/
theorem field_eval_requires_sources (slv : BEMSolver) (points : List Int)
    (mesh : Mesh) (chunk_size : Nat) (r : ResultData) (h : r.sources = none) :
    compute_potential slv points r = .error (.exception sources_missing_full_msg)
    ∧ compute_pressure slv points r = .error (.exception sources_missing_full_msg)
    ∧ compute_free_surface_elevation slv points r
        = .error (.exception sources_missing_full_msg)
    ∧ get_potential_on_mesh slv r mesh chunk_size
        = .error (.exception sources_missing_full_msg)
    ∧ compute_velocity slv points r = .error (.exception sources_missing_details_msg)
    ∧ mentions_full_remedy sources_missing_full_msg = true
    ∧ mentions_full_remedy sources_missing_details_msg = false
    ∧ mentions_keep_details sources_missing_details_msg = true
    ∧ (PyError.exception sources_missing_full_msg).is_data_availability = true
    ∧ (PyError.exception sources_missing_details_msg).is_data_availability = true := by
  have hp : compute_potential slv points r = .error (.exception sources_missing_full_msg) := by
    unfold compute_potential
    rw [h]
  have hg : compute_potential_gradient slv points r
      = .error (.exception sources_missing_details_msg) := by
    unfold compute_potential_gradient
    rw [h]
  refine ⟨hp, ?_, ?_, ?_, ?_, by decide, by decide, by decide, rfl, rfl⟩
  · unfold compute_pressure
    rw [hp]
    split <;> rfl
  · unfold compute_free_surface_elevation
    rw [hp]
    split <;> rfl
  · unfold get_potential_on_mesh
    rw [h]
  · unfold compute_velocity
    rw [hg]

/-- Witness for C4 amended on a concrete sourceless result. -/
theorem field_eval_requires_sources_witness :
    compute_potential wSolver [5] wNoSourcesResult
      = .error (.exception sources_missing_full_msg)
    ∧ get_potential_on_mesh wSolver wNoSourcesResult wMesh 50
      = .error (.exception sources_missing_full_msg)
    ∧ compute_pressure wSolver [5] wNoSourcesResult
      = .error (.exception sources_missing_full_msg)
    ∧ compute_free_surface_elevation wSolver [5] wNoSourcesResult
      = .error (.exception sources_missing_full_msg) := by
  obtain ⟨h1, h2, h3, h4, _⟩ := field_eval_requires_sources wSolver [5] wMesh 50
    wNoSourcesResult rfl
  exact ⟨h1, h4, h2, h3⟩

/-- Counterexample for C5: a diffraction problem with nonzero forward speed
whose encounter frequency is exactly zero is rejected by the degenerate
diffraction check, which runs before the method dispatch, so solve with the
direct method raises a ValueError there, not a NotImplementedError. -/
theorem direct_forward_speed_counterexample :
    wSpeedDiffraction.forward_speed ≠ 0
    ∧ solve wSolver wSpeedDiffraction (some "direct") true
        = .error (.valueError degenerate_diffraction_msg)
    ∧ ∀ msg, PyError.valueError degenerate_diffraction_msg ≠ PyError.notImplementedError msg :=
  ⟨by decide, rfl, fun _ h => PyError.noConfusion h⟩

/-- C5 amended: for every problem with nonzero forward speed that is not a
degenerate diffraction problem, solve with the direct method selected by
argument or solver default raises a NotImplementedError; and whenever the
direct method succeeds, the forward speed was zero. -/
theorem direct_method_requires_zero_forward_speed (slv : BEMSolver) (p : ProblemData)
    (method : Option String) (kd : Bool) (hm : method.getD slv.method = "direct") :
    (p.forward_speed ≠ 0 → bad_diffraction p = false →
        solve slv p method kd = .error (.notImplementedError direct_forward_speed_msg))
    ∧ ∀ r, solve slv p method kd = .ok r → p.forward_speed = 0 := by
  have hdir : (method.getD slv.method == "direct") = true := by
    rw [hm]
    rfl
  have hraise : p.forward_speed ≠ 0 → bad_diffraction p = false →
      solve slv p method kd = .error (.notImplementedError direct_forward_speed_msg) := by
    intro hspeed hbad
    unfold solve
    rw [if_neg (by simp [hbad]), if_pos hdir]
    unfold solve_direct_branch
    rw [if_pos (by simpa using hspeed)]
  refine ⟨hraise, ?_⟩
  intro r hok
  by_contra hspeed
  cases hb : bad_diffraction p with
  | true =>
    rw [solve_of_bad_diffraction slv p method kd hb] at hok
    exact absurd hok (by simp)
  | false =>
    rw [hraise hspeed hb] at hok
    exact absurd hok (by simp)

/-- Witness for C5 amended: a radiation problem with forward speed one. -/
theorem direct_method_requires_zero_forward_speed_witness :
    solve wSolver wSpeedRadiation (some "direct") true
      = .error (.notImplementedError direct_forward_speed_msg) :=
  (direct_method_requires_zero_forward_speed wSolver wSpeedRadiation
    (some "direct") true rfl).1 (by decide) (by decide)

/-- Counterexample for C7: in a batch where a risky problem has a body with a
lid but another problem has a body without one, the warning recommends adding
a lid, although it is not the case that none of the bodies has a lid. -/
theorem irregular_check_lid_counterexample :
    irregular_frequencies_check [wRiskyLidProblem, wProblem] = some LidAdvice.addLid
    ∧ wRiskyLidProblem.body.lid_mesh ≠ none
    ∧ irregular_risky wRiskyLidProblem = true :=
  ⟨by decide, by decide, by decide⟩

/-- C7 amended: a problem is risky exactly when it has a finite free surface
and its frequency lies strictly between the estimated first irregular
frequency of its body and infinity; a warning is emitted exactly when some
problem of the batch is risky, it recommends adding a lid exactly when at
least one body of the batch has no lid, and otherwise recommends moving the
lid closer to the free surface; the check is a total function and never
raises. -/
theorem irregular_check_characterization (problems : List ProblemData) :
    ((irregular_frequencies_check problems).isSome = true
        ↔ ∃ pb ∈ problems, irregular_risky pb = true)
    ∧ (irregular_frequencies_check problems = some LidAdvice.addLid
        ↔ ((∃ pb ∈ problems, irregular_risky pb = true)
            ∧ ∃ pb ∈ problems, pb.body.lid_mesh = none))
    ∧ (irregular_frequencies_check problems = some LidAdvice.moveLidCloser
        ↔ ((∃ pb ∈ problems, irregular_risky pb = true)
            ∧ ∀ pb ∈ problems, pb.body.lid_mesh ≠ none))
    ∧ ∀ pb : ProblemData, irregular_risky pb = true
        ↔ (pb.free_surface ≠ Xf.inf
            ∧ Xf.lt (pb.body.first_irregular_frequency_estimate pb.g) pb.omega = true
            ∧ Xf.lt pb.omega Xf.inf = true) := by
  have hlen : (1 ≤ (problems.filter irregular_risky).length)
      ↔ ∃ pb ∈ problems, irregular_risky pb = true := by
    rw [Nat.one_le_iff_ne_zero]
    constructor
    · intro hne
      have : problems.filter irregular_risky ≠ [] := by
        intro hnil
        exact hne (by rw [hnil]; rfl)
      obtain ⟨pb, hpb⟩ := List.exists_mem_of_ne_nil _ this
      obtain ⟨hmem, hrisk⟩ := List.mem_filter.mp hpb
      exact ⟨pb, hmem, hrisk⟩
    · intro ⟨pb, hmem, hrisk⟩
      have : pb ∈ problems.filter irregular_risky := List.mem_filter.mpr ⟨hmem, hrisk⟩
      intro hzero
      rw [List.length_eq_zero.mp hzero] at this
      exact absurd this (List.not_mem_nil pb)
  have hany : (problems.any fun pb => pb.body.lid_mesh.isNone)
      = true ↔ ∃ pb ∈ problems, pb.body.lid_mesh = none := by
    rw [List.any_eq_true]
    constructor
    · intro ⟨pb, hmem, hn⟩
      exact ⟨pb, hmem, Option.isNone_iff_eq_none.mp hn⟩
    · intro ⟨pb, hmem, hn⟩
      exact ⟨pb, hmem, Option.isNone_iff_eq_none.mpr hn⟩
  have hrisky : ∀ pb : ProblemData, irregular_risky pb = true
      ↔ (pb.free_surface ≠ Xf.inf
          ∧ Xf.lt (pb.body.first_irregular_frequency_estimate pb.g) pb.omega = true
          ∧ Xf.lt pb.omega Xf.inf = true) := by
    intro pb
    unfold irregular_risky
    rw [Bool.and_eq_true, Bool.and_eq_true, bne_iff_ne]
    exact ⟨fun ⟨⟨h1, h2⟩, h3⟩ => ⟨h1, h2, h3⟩, fun ⟨h1, h2, h3⟩ => ⟨⟨h1, h2⟩, h3⟩⟩
  by_cases hr : 1 ≤ (problems.filter irregular_risky).length
  · by_cases ha : (problems.any fun pb => pb.body.lid_mesh.isNone) = true
    · have hc : irregular_frequencies_check problems = some LidAdvice.addLid := by
        unfold irregular_frequencies_check
        dsimp only
        rw [if_pos hr, if_pos ha]
      refine ⟨?_, ?_, ?_, hrisky⟩
      · rw [hc]
        simp only [Option.isSome_some, true_iff]
        exact hlen.mp hr
      · rw [hc]
        exact ⟨fun _ => ⟨hlen.mp hr, hany.mp ha⟩, fun _ => rfl⟩
      · rw [hc]
        constructor
        · intro hx
          exact absurd (Option.some.inj hx) (fun hww => LidAdvice.noConfusion hww)
        · intro ⟨_, hall⟩
          obtain ⟨pb, hmem, hn⟩ := hany.mp ha
          exact absurd hn (hall pb hmem)
    · have hc : irregular_frequencies_check problems = some LidAdvice.moveLidCloser := by
        unfold irregular_frequencies_check
        dsimp only
        rw [if_pos hr, if_neg ha]
      refine ⟨?_, ?_, ?_, hrisky⟩
      · rw [hc]
        simp only [Option.isSome_some, true_iff]
        exact hlen.mp hr
      · rw [hc]
        constructor
        · intro hx
          exact absurd (Option.some.inj hx) (fun hww => LidAdvice.noConfusion hww)
        · intro ⟨_, hex⟩
          exact absurd (hany.mpr hex) ha
      · rw [hc]
        constructor
        · intro _
          refine ⟨hlen.mp hr, ?_⟩
          intro pb hmem hn
          exact ha (hany.mpr ⟨pb, hmem, hn⟩)
        · intro _
          rfl
  · have hc : irregular_frequencies_check problems = none := by
      unfold irregular_frequencies_check
      dsimp only
      rw [if_neg hr]
    refine ⟨?_, ?_, ?_, hrisky⟩
    · rw [hc]
      constructor
      · intro hx
        simp at hx
      · intro hex
        exact absurd (hlen.mpr hex) hr
    · rw [hc]
      exact ⟨fun hx => Option.noConfusion hx, fun ⟨hex, _⟩ => absurd (hlen.mpr hex) hr⟩
    · rw [hc]
      exact ⟨fun hx => Option.noConfusion hx, fun ⟨hex, _⟩ => absurd (hlen.mpr hex) hr⟩

/-- Witness for C7 amended: a singleton batch whose only problem is risky and
whose body has a lid, so the warning recommends moving the lid closer. -/
theorem irregular_check_characterization_witness :
    irregular_frequencies_check [wRiskyLidProblem] = some LidAdvice.moveLidCloser := by
  refine (irregular_check_characterization [wRiskyLidProblem]).2.2.1.mpr
    ⟨⟨wRiskyLidProblem, by simp, by decide⟩, ?_⟩
  intro pb hpb
  rw [List.mem_singleton.mp hpb]
  decide

theorem matvec_evalS (gf : GreenFunction) (points : List Int) (m : Mesh)
    (fs wd wn : Xf) (s : List Cx) :
    matvec (evalS gf points m fs wd wn) s
      = points.map (fun fi => dotC (m.faces.map (fun fj => gf.coeff fs wd wn fi fj)) s) := by
  simp [matvec, evalS, List.map_map]

theorem chunkedPhi_eq_aux (gf : GreenFunction) (m : Mesh) (fs wd wn : Xf)
    (s : List Cx) (chunk : Nat) :
    ∀ (n : Nat) (faces : List Int), faces.length ≤ n →
      chunkedPhi gf m fs wd wn s chunk faces = matvec (evalS gf faces m fs wd wn) s := by
  intro n
  induction n with
  | zero =>
    intro faces hle
    have hnil : faces = [] := List.eq_nil_of_length_eq_zero (Nat.le_zero.mp hle)
    subst hnil
    simp [chunkedPhi, matvec, evalS]
  | succ n ih =>
    intro faces hle
    cases faces with
    | nil => simp [chunkedPhi, matvec, evalS]
    | cons f rest =>
      have hdrop : (rest.drop (chunk - 1)).length ≤ n := by
        have hrest : rest.length ≤ n := by simpa using hle
        simp only [List.length_drop]
        omega
      simp only [chunkedPhi]
      rw [ih _ hdrop]
      simp only [matvec_evalS]
      rw [← List.map_append, List.cons_append, List.take_append_drop]

/-- The chunked loop computes exactly the rows of the full single layer
matrix applied to the sources. -/
theorem chunkedPhi_eq (gf : GreenFunction) (m : Mesh) (fs wd wn : Xf)
    (s : List Cx) (chunk : Nat) (faces : List Int) :
    chunkedPhi gf m fs wd wn s chunk faces = matvec (evalS gf faces m fs wd wn) s :=
  chunkedPhi_eq_aux gf m fs wd wn s chunk faces.length faces (Nat.le_refl _)

/-- Counterexample for C6 as stated: with chunk_size equal to the number of
faces of the mesh, here both one, chunk_size is greater than or equal to
nb_faces and yet the chunked branch is taken, because the branch condition of
line 540 of the source is the strict comparison chunk_size greater than
nb_faces. -/
theorem chunk_boundary_counterexample :
    unchunked_path_taken 1 (Mesh.nb_faces ⟨[7]⟩) = false
    ∧ 1 ≥ Mesh.nb_faces ⟨[7]⟩ :=
  ⟨by decide, by decide⟩

/-- C6 amended: on any result whose sources are stored, the legacy potential
computed with chunk_size one equals the one computed by the unchunked path,
both being the single layer matrix of the target mesh against the lid
inclusive source mesh applied to the stored sources; the unchunked branch is
taken exactly when chunk_size strictly exceeds the number of faces. -/
theorem chunked_equals_unchunked (slv : BEMSolver) (r : ResultData)
    (mesh : Mesh) (sources : List Cx) (h : r.sources = some sources) :
    get_potential_on_mesh slv r mesh 1
      = .ok (matvec (build_S_matrix slv.green_function mesh r.body.mesh_including_lid
              r.free_surface r.water_depth r.wavenumber) sources)
    ∧ get_potential_on_mesh slv r mesh (mesh.nb_faces + 1)
      = .ok (matvec (build_S_matrix slv.green_function mesh r.body.mesh_including_lid
              r.free_surface r.water_depth r.wavenumber) sources)
    ∧ ∀ chunk_size : Nat, unchunked_path_taken chunk_size mesh.nb_faces = true
        ↔ mesh.nb_faces < chunk_size := by
  refine ⟨?_, ?_, ?_⟩
  · unfold get_potential_on_mesh
    rw [h]
    dsimp only
    by_cases h1 : unchunked_path_taken 1 mesh.nb_faces = true
    · rw [if_pos h1]
    · rw [if_neg h1, if_neg (by decide : ¬ (((1 : Nat) == 0) = true))]
      rw [chunkedPhi_eq]
      rfl
  · unfold get_potential_on_mesh
    rw [h]
    dsimp only
    rw [if_pos (by simp [unchunked_path_taken] : unchunked_path_taken
      (mesh.nb_faces + 1) mesh.nb_faces = true)]
  · intro c
    simp [unchunked_path_taken]

/-- Witness for C6 amended on a concrete result and mesh. -/
theorem chunked_equals_unchunked_witness :
    get_potential_on_mesh wSolver wSourcesResult wMesh 1
      = .ok (matvec (build_S_matrix wSolver.green_function wMesh
              wSourcesResult.body.mesh_including_lid wSourcesResult.free_surface
              wSourcesResult.water_depth wSourcesResult.wavenumber) [(1, 0), (2, 0)])
    ∧ get_potential_on_mesh wSolver wSourcesResult wMesh 3
      = .ok (matvec (build_S_matrix wSolver.green_function wMesh
              wSourcesResult.body.mesh_including_lid wSourcesResult.free_surface
              wSourcesResult.water_depth wSourcesResult.wavenumber) [(1, 0), (2, 0)]) := by
  obtain ⟨h1, h2, _⟩ := chunked_equals_unchunked wSolver wSourcesResult wMesh
    [(1, 0), (2, 0)] rfl
  exact ⟨h1, h2⟩

theorem mesh_including_lid_take (b : FloatingBody) :
    b.mesh_including_lid.faces.take b.mesh.nb_faces = b.mesh.faces := by
  unfold FloatingBody.mesh_including_lid Mesh.nb_faces
  cases b.lid_mesh with
  | none => exact List.take_length _
  | some lid => exact List.take_left _ _

theorem solve_direct_branch_spec (slv : BEMSolver) (p : ProblemData) (kd : Bool)
    (omega wavenumber : Xf) (r : ResultData)
    (hbc : p.boundary_condition.length = p.body.mesh_including_lid.nb_faces)
    (h : solve_direct_branch slv p kd omega wavenumber = .ok r) :
    ∃ pressure : List SVal,
      r.forces = p.body.integrate_pressure (pressure.take p.body.mesh.nb_faces)
      ∧ pressure.length = p.body.mesh_including_lid.nb_faces
      ∧ (kd = true → r.pressure = some pressure
          ∧ ∃ potential : List Cx, r.potential = some potential
              ∧ potential.length = p.body.mesh_including_lid.nb_faces) := by
  unfold solve_direct_branch at h
  dsimp only at h
  split at h
  · exact absurd h (by simp)
  · set pot := slv.engine.linear_solver
        (build_DK_matrix slv.green_function false p.body.mesh_including_lid
          p.body.mesh_including_lid p.free_surface p.water_depth wavenumber)
        (matvec (build_S_matrix slv.green_function p.body.mesh_including_lid
          p.body.mesh_including_lid p.free_surface p.water_depth wavenumber)
          p.boundary_condition) with hpotdef
    split at h
    · exact absurd h (by simp)
    · rename_i hshape
      have hpotlen : pot.length = p.body.mesh_including_lid.nb_faces := by
        rw [← hbc]
        simpa using hshape
      rw [Except.ok.injEq] at h
      subst h
      refine ⟨pot.map (fun phi => SVal.presTerm omega p.rho phi), ?_, ?_, ?_⟩
      · rw [mk_result_forces]
      · rw [List.length_map]
        exact hpotlen
      · intro hkd
        subst hkd
        exact ⟨mk_result_pressure _ _ _ _, pot, mk_result_potential _ _ _ _, hpotlen⟩

theorem solve_indirect_branch_spec (slv : BEMSolver) (p : ProblemData) (kd : Bool)
    (omega wavenumber : Xf) (r : ResultData)
    (_hbc : p.boundary_condition.length = p.body.mesh_including_lid.nb_faces)
    (h : solve_indirect_branch slv p kd omega wavenumber = .ok r) :
    ∃ pressure : List SVal,
      r.forces = p.body.integrate_pressure (pressure.take p.body.mesh.nb_faces)
      ∧ pressure.length = p.body.mesh_including_lid.nb_faces
      ∧ (kd = true → r.pressure = some pressure
          ∧ ∃ potential : List Cx, r.potential = some potential
              ∧ potential.length = p.body.mesh_including_lid.nb_faces) := by
  unfold solve_indirect_branch at h
  dsimp only at h
  split at h
  · exact absurd h (by simp)
  · set src := slv.engine.linear_solver
        (build_DK_matrix slv.green_function true p.body.mesh_including_lid
          p.body.mesh_including_lid p.free_surface p.water_depth wavenumber)
        p.boundary_condition with hsrcdef
    set pot := matvec (build_S_matrix slv.green_function p.body.mesh_including_lid
        p.body.mesh_including_lid p.free_surface p.water_depth wavenumber) src
      with hpotdef
    have hpotlen : pot.length = p.body.mesh_including_lid.nb_faces := by
      rw [hpotdef, matvec_length]
      unfold build_S_matrix
      rw [evalS_length]
      rfl
    split at h
    · simp only [compute_potential_gradient, ResultData.body, ResultData.free_surface,
        ResultData.water_depth, ResultData.encounter_wavenumber] at h
      rw [Except.ok.injEq] at h
      subst h
      refine ⟨List.zipWith (fun pr d => SVal.presFwd pr p.rho p.forward_speed d.1)
          (pot.map (fun phi => SVal.presTerm omega p.rho phi))
          (gradMatvec slv.green_function p.body.mesh_including_lid.faces
            p.body.mesh_including_lid p.free_surface p.water_depth
            p.encounter_wavenumber src), ?_, ?_, ?_⟩
      · rw [mk_result_forces]
      · rw [List.length_zipWith, List.length_map, hpotlen, gradMatvec_length]
        exact Nat.min_self _
      · intro hkd
        subst hkd
        exact ⟨mk_result_pressure _ _ _ _, pot, mk_result_potential _ _ _ _, hpotlen⟩
    · rw [Except.ok.injEq] at h
      subst h
      refine ⟨pot.map (fun phi => SVal.presTerm omega p.rho phi), ?_, ?_, ?_⟩
      · rw [mk_result_forces]
      · rw [List.length_map]
        exact hpotlen
      · intro hkd
        subst hkd
        exact ⟨mk_result_pressure _ _ _ _, pot, mk_result_potential _ _ _ _, hpotlen⟩

/-- C9: whenever solve succeeds, the forces of the result are the pressure
integration of the computed face pressure restricted to its first
mesh.nb_faces entries, which are exactly the faces of the original hull mesh,
any lid entries being discarded; the stored pressure and potential of a
detailed result still cover all lid inclusive faces. -/
theorem hull_pressure_restriction (slv : BEMSolver) (p : ProblemData)
    (method : Option String) (kd : Bool) (r : ResultData)
    (hbc : p.boundary_condition.length = p.body.mesh_including_lid.nb_faces)
    (hok : solve slv p method kd = .ok r) :
    r.problem = p
    ∧ p.body.mesh_including_lid.faces.take p.body.mesh.nb_faces = p.body.mesh.faces
    ∧ ∃ pressure : List SVal,
        pressure.length = p.body.mesh_including_lid.nb_faces
        ∧ r.forces = p.body.integrate_pressure (pressure.take p.body.mesh.nb_faces)
        ∧ (kd = true → r.pressure = some pressure
            ∧ ∃ potential : List Cx, r.potential = some potential
                ∧ potential.length = p.body.mesh_including_lid.nb_faces) := by
  refine ⟨solve_ok_problem slv p method kd r hok, mesh_including_lid_take p.body, ?_⟩
  unfold solve at hok
  split at hok
  · exact absurd hok (by simp)
  · split at hok
    · obtain ⟨pres, hf, hl, hd⟩ := solve_direct_branch_spec slv p kd _ _ r hbc hok
      exact ⟨pres, hl, hf, hd⟩
    · obtain ⟨pres, hf, hl, hd⟩ := solve_indirect_branch_spec slv p kd _ _ r hbc hok
      exact ⟨pres, hl, hf, hd⟩

/-- Witness for C9 on a concrete successful indirect solve: the integration
capability of the concrete body returns the length of the vector handed to
it, and the forces of the result are the number of hull faces, two, while the
stored pressure also has two entries since this body has no lid. -/
theorem hull_pressure_restriction_witness :
    ∃ r, solve wSolver wProblem none true = .ok r
      ∧ r.forces = 2
      ∧ ∃ pressure, r.pressure = some pressure ∧ pressure.length = 2 := by
  obtain ⟨r, hr⟩ : ∃ r, solve wSolver wProblem none true = .ok r := ⟨_, rfl⟩
  obtain ⟨_, _, pres, hlen, hforce, hdet⟩ :=
    hull_pressure_restriction wSolver wProblem none true r (by decide) hr
  obtain ⟨hpres, _, _, _⟩ := hdet rfl
  refine ⟨r, hr, ?_, pres, hpres, hlen⟩
  rw [hforce]
  have : (pres.take wProblem.body.mesh.nb_faces).length = 2 := by
    rw [List.length_take, hlen]
    rfl
  calc wProblem.body.integrate_pressure (pres.take wProblem.body.mesh.nb_faces)
      = Int.ofNat (pres.take wProblem.body.mesh.nb_faces).length := rfl
    _ = 2 := by rw [this]; rfl
